import Mathlib

/-!
Verification development for the BarPrepPath repository (Texas Bar Prep app).

The definitions below are a shallow embedding of the server-side code:

* the Anthropic response cleanup and JSON-span extraction of
  `AIService.gradeResponseAnthropic` (server/services/aiService.ts, lines
  342-372), modelled as functions on `List Char`;
* the analytics aggregator `updateUserAnalytics` (route helper, aiService.ts
  lines 755-771) and `DatabaseStorage.calculatePassProbability`
  (storage, replit.md lines 238-270), with JavaScript numbers modelled as
  exact rationals;
* the store (schema of src/unnamed/part_000) and the request handlers
  `POST /api/question-responses`, `POST /api/diagnostic-tests`,
  `GET /api/users/:userId/chat-history`, and the provider dispatchers of
  `AIService` (generateQuestion / gradeResponse / getChatResponse).

External LLM backends are modelled as opaque `Except`-valued parameters, and
timestamps as natural numbers supplied by the caller.
-/

/-! ### Characters and JavaScript-style scanning primitives -/

/-- The backtick character (spelled via its code point). -/
def backtick : Char := Char.ofNat 96

/-- The opening curly brace character. -/
def lbrace : Char := Char.ofNat 123

/-- The closing curly brace character. -/
def rbrace : Char := Char.ofNat 125

/-- Model of the JavaScript `\s` character class (and of the characters
`String.prototype.trim` removes), restricted to the ASCII whitespace
characters that occur in backend replies. -/
def isJsWhitespace (c : Char) : Bool :=
  c = ' ' || c = '\t' || c = '\n' || c = '\r' || c = '\x0b' || c = '\x0c'

/-- Model of a JavaScript line terminator, as recognised by `$` under the
`m` regex flag (restricted to `\n` and `\r`). -/
def isLineTerm (c : Char) : Bool := c = '\n' || c = '\r'

/-- The suffix of `l` starting at the last line terminator of `l`, if any.
Used to model the greedy backtracking of `\s*$` in multiline mode. -/
def suffixFromLastLineTerm : List Char → Option (List Char)
  | [] => none
  | c :: rest =>
    match suffixFromLastLineTerm rest with
    | some s => some s
    | none => if isLineTerm c then some (c :: rest) else none

/-- Fuelled worker for `stripJsonFences`.  Models
`responseText.replace(/```json\s*/gi, '')` from
`AIService.gradeResponseAnthropic`: every occurrence of three backticks
followed by `json` (case-insensitive) and a greedy whitespace run is
deleted; scanning resumes after the deleted text, exactly as the JavaScript
global replace does. -/
def stripJsonFencesF : ℕ → List Char → List Char
  | 0, l => l
  | fuel + 1, l =>
    match l with
    | [] => []
    | c :: rest =>
      if c = backtick then
        match rest with
        | b2 :: b3 :: c1 :: c2 :: c3 :: c4 :: r =>
          if b2 = backtick && b3 = backtick && c1.toLower = 'j' && c2.toLower = 's'
              && c3.toLower = 'o' && c4.toLower = 'n' then
            stripJsonFencesF fuel (r.dropWhile isJsWhitespace)
          else c :: stripJsonFencesF fuel rest
        | _ => c :: stripJsonFencesF fuel rest
      else c :: stripJsonFencesF fuel rest

/-- `responseText.replace(/```json\s*/gi, '')` (aiService.ts line 354). -/
def stripJsonFences (l : List Char) : List Char := stripJsonFencesF l.length l

/-- Fuelled worker for `stripFenceEol`.  Models
`responseText.replace(/```\s*$/gm, '')` (aiService.ts line 355): at a run of
three backticks the regex engine greedily consumes following whitespace and
backtracks to an end-of-line position.  The match therefore deletes the
backticks together with the whitespace up to (excluding) the last line
terminator of the following whitespace run, or up to the end of the string
when only whitespace remains; if the whitespace run contains no line
terminator and the string does not end there, no match starts at this
position and scanning advances one character. -/
def stripFenceEolF : ℕ → List Char → List Char
  | 0, l => l
  | fuel + 1, l =>
    match l with
    | [] => []
    | c :: rest =>
      if c = backtick then
        match rest with
        | b2 :: b3 :: r0 =>
          if b2 = backtick && b3 = backtick then
            if (r0.dropWhile isJsWhitespace).isEmpty then []
            else
              match suffixFromLastLineTerm (r0.takeWhile isJsWhitespace) with
              | some s => s ++ stripFenceEolF fuel (r0.dropWhile isJsWhitespace)
              | none => c :: stripFenceEolF fuel rest
          else c :: stripFenceEolF fuel rest
        | _ => c :: stripFenceEolF fuel rest
      else c :: stripFenceEolF fuel rest

/-- `responseText.replace(/```\s*$/gm, '')` (aiService.ts line 355). -/
def stripFenceEol (l : List Char) : List Char := stripFenceEolF l.length l

/-- `responseText.replace(/^`+|`+$/g, '')` (aiService.ts line 356): strip a
leading and a trailing run of backticks (anchors are whole-string anchors,
the regex has no `m` flag). -/
def stripEdgeBackticks (l : List Char) : List Char :=
  ((l.dropWhile (fun c => c = backtick)).reverse.dropWhile (fun c => c = backtick)).reverse

/-- `responseText.trim()` (aiService.ts line 357). -/
def trimStr (l : List Char) : List Char :=
  ((l.dropWhile isJsWhitespace).reverse.dropWhile isJsWhitespace).reverse

/-- The full cleanup chain of `AIService.gradeResponseAnthropic`
(aiService.ts lines 353-357). -/
def cleanResponse (l : List Char) : List Char :=
  trimStr (stripEdgeBackticks (stripFenceEol (stripJsonFences l)))

/-- `responseText.match(/\{[\s\S]*\}/)` (aiService.ts line 360).  The
pattern is greedy, so a match runs from the first opening brace to the last
closing brace of the whole string; there is a match exactly when some
closing brace occurs strictly after the first opening brace. -/
def extractBraceSpan (l : List Char) : Option (List Char) :=
  let m := l.dropWhile (fun c => !(c = lbrace))
  if m.isEmpty then none
  else
    let m2 := (m.reverse.dropWhile (fun c => !(c = rbrace))).reverse
    if 2 ≤ m2.length then some m2 else none

/-- The text `gradeResponseAnthropic` hands to `JSON.parse` (aiService.ts
lines 360-366): the cleaned reply, replaced by the matched brace span when
the regex matches. -/
def extractJsonText (raw : List Char) : List Char :=
  match extractBraceSpan (cleanResponse raw) with
  | some m => m
  | none => cleanResponse raw

/-- Worker for `specFirstBalancedBraceSpan`: consume characters while
tracking brace depth, returning the consumed prefix once depth returns to
zero. -/
def takeBalancedAux : List Char → ℕ → List Char → Option (List Char)
  | [], _, _ => none
  | c :: rest, depth, acc =>
    if c = lbrace then takeBalancedAux rest (depth + 1) (acc ++ [c])
    else if c = rbrace then
      if depth = 1 then some (acc ++ [c])
      else takeBalancedAux rest (depth - 1) (acc ++ [c])
    else takeBalancedAux rest depth (acc ++ [c])

/-- Modelled from the spec: the "first balanced `{...}` span" of a text,
which the specification says the adapter's JSON extraction locates
(spec section 4.1).  This definition follows the spec's words and is kept
separate from `extractBraceSpan`, which is the code's actual behaviour. -/
def specFirstBalancedBraceSpan (l : List Char) : Option (List Char) :=
  takeBalancedAux (l.dropWhile (fun c => !(c = lbrace))) 0 []

/-- The opening markdown fence ```` ```json ```` followed by a newline. -/
def fenceOpen : List Char := [backtick, backtick, backtick, 'j', 's', 'o', 'n', '\n']

/-- A newline followed by the closing markdown fence ```` ``` ````. -/
def fenceClose : List Char := ['\n', backtick, backtick, backtick]

/-- Concrete JSON-like payload used in the extraction examples. -/
def examplePayload : List Char := [lbrace, 'a', rbrace]

/-- A concrete backend reply: a fenced payload followed by trailing
commentary that itself contains a brace span. -/
def exampleReply : List Char :=
  fenceOpen ++ examplePayload ++ fenceClose ++ ("\nAlso: ").data ++ [lbrace, 'b', rbrace]

/-- Concrete brace-free leading commentary used in the extraction witness. -/
def exampleCommentary : List Char := ("Here is the answer:\n").data

/-! ### Analytics rows and the pass-probability heuristic -/

/-- One row of the `user_analytics` table (src/unnamed/part_000, lines
51-63).  The SQL `decimal` columns `averageScore` and `masteryLevel` are
modelled as exact rationals, timestamps as naturals. -/
structure AnalyticsRow where
  userId : String
  subject : String
  totalQuestions : ℕ
  correctAnswers : ℕ
  averageScore : ℚ
  masteryLevel : ℚ
  lastPracticed : ℕ
deriving DecidableEq, Repr

/-- The fixed subject weight table of
`DatabaseStorage.calculatePassProbability` (storage, replit.md lines
244-254), with `subjectWeights[subject] || 0.05` for unlisted subjects. -/
def subjectWeight (s : String) : ℚ :=
  if s = ("constitutional-law") then 15 / 100
  else if s = ("contracts") then 15 / 100
  else if s = ("torts") then 15 / 100
  else if s = ("criminal-law") then 15 / 100
  else if s = ("evidence") then 10 / 100
  else if s = ("real-property") then 10 / 100
  else if s = ("civil-procedure") then 10 / 100
  else if s = ("family-law") then 5 / 100
  else if s = ("wills-trusts") then 5 / 100
  else 5 / 100

/-- The weighted average mastery of `calculatePassProbability` (storage,
replit.md lines 256-266): sum of `masteryLevel * weight` over the rows,
divided by the total weight used (0 when the total weight is 0). -/
def weightedMastery (rows : List AnalyticsRow) : ℚ :=
  let weightedSum := (rows.map (fun a => a.masteryLevel * subjectWeight a.subject)).sum
  let totalWeight := (rows.map (fun a => subjectWeight a.subject)).sum
  if 0 < totalWeight then weightedSum / totalWeight else 0

/-- The final rescaling of `calculatePassProbability` (storage, replit.md
line 269): `Math.min(100, Math.max(0, (avgMastery - 50) * 2))`. -/
def passFromMastery (m : ℚ) : ℚ := min 100 (max 0 ((m - 50) * 2))

/-- `DatabaseStorage.calculatePassProbability` (storage, replit.md lines
238-270): 0 when the user has no analytics rows, otherwise the clamped
linear rescaling of the weighted average mastery. -/
def calculatePassProbability (rows : List AnalyticsRow) : ℚ :=
  if rows = [] then 0 else passFromMastery (weightedMastery rows)

/-- The route helper `updateUserAnalytics` (aiService.ts lines 755-771):
given the existing row for (user, subject) if any, increment both counters,
recompute `averageScore = correct/total*100`, cap the mastery level at 100
and stamp `lastPracticed` with the current time. -/
def updateUserAnalytics (prev : Option AnalyticsRow) (userId subject : String)
    (isCorrect : Bool) (now : ℕ) : AnalyticsRow :=
  let totalQuestions := (prev.map (fun a => a.totalQuestions)).getD 0 + 1
  let correctAnswers := (prev.map (fun a => a.correctAnswers)).getD 0 + (if isCorrect then 1 else 0)
  let averageScore := ((correctAnswers : ℚ) / (totalQuestions : ℚ)) * 100
  { userId := userId
    subject := subject
    totalQuestions := totalQuestions
    correctAnswers := correctAnswers
    averageScore := averageScore
    masteryLevel := min 100 averageScore
    lastPracticed := now }

/-- The state of the (user, subject) analytics row after a sequential run
of graded responses, each given as (isCorrect, timestamp), starting from no
row.  Models repeated calls of the route helper together with the storage
upsert `DatabaseStorage.updateUserAnalytics` (storage, replit.md lines
221-236). -/
def runAnalytics (userId subject : String) (outcomes : List (Bool × ℕ)) :
    Option AnalyticsRow :=
  outcomes.foldl (fun prev o => some (updateUserAnalytics prev userId subject o.1 o.2)) none

/-- `DatabaseStorage.updateUserAnalytics` (storage, replit.md lines
221-236) combined with the route helper: read the current row for
(user, subject), recompute the new values, then update the row in place if
one exists and insert a new row otherwise. -/
def upsertUserAnalytics (rows : List AnalyticsRow) (userId subject : String)
    (isCorrect : Bool) (now : ℕ) : List AnalyticsRow :=
  let prev := rows.find? (fun a => a.userId == userId && a.subject == subject)
  let newRow := updateUserAnalytics prev userId subject isCorrect now
  match prev with
  | some _ =>
      rows.map (fun a => if a.userId == userId && a.subject == subject then newRow else a)
  | none => rows ++ [newRow]

/-! ### Sessions, question responses and the store -/

/-- One row of the `test_sessions` table (src/unnamed/part_000, lines
16-29), restricted to the columns the verified handlers touch. -/
structure TestSessionRow where
  id : String
  userId : Option String
  testType : String
  llmProvider : String
  status : String
  totalQuestions : Option ℕ
  currentQuestionIndex : ℕ
deriving DecidableEq, Repr

/-- The grading verdict shape `AIGrading` (aiService.ts lines 26-32),
with the JavaScript number score as an exact rational. -/
structure AIGrading where
  score : ℚ
  feedback : String
  strengths : List String
  improvements : List String
  correctAnswer : Option String
deriving DecidableEq, Repr

/-- The generated question shape `AIQuestion` (aiService.ts lines 16-24). -/
structure AIQuestion where
  qtype : String
  subject : String
  questionText : String
  options : Option (List String)
  correctAnswer : Option String
  explanation : String
  difficulty : String
deriving DecidableEq, Repr

/-- One row of the `question_responses` table (src/unnamed/part_000, lines
32-48), restricted to the columns the verified handlers write. -/
structure QuestionResponseRow where
  sessionId : String
  questionNumber : ℕ
  questionType : String
  subject : Option String
  questionText : String
  userAnswer : String
  correctAnswer : Option String
  isCorrect : Bool
  explanation : String
  aiGrading : Option AIGrading
  timeSpent : Option ℕ
  llmProvider : String
deriving DecidableEq, Repr

/-- One row of the `chat_messages` table (src/unnamed/part_000, lines
66-74). -/
structure ChatMessageRow where
  userId : String
  message : String
  response : String
  llmProvider : String
  context : Option String
  createdAt : ℕ
deriving DecidableEq, Repr

/-- The persistent store: the tables the verified handlers read or write. -/
structure Store where
  sessions : List TestSessionRow
  responses : List QuestionResponseRow
  analytics : List AnalyticsRow
  chats : List ChatMessageRow
deriving DecidableEq, Repr

/-- `DatabaseStorage.createQuestionResponse` (storage, replit.md lines
201-204): a plain insert into `question_responses`.  Postgres enforces the
`session_id` foreign key (src/unnamed/part_000, line 34) and rejects the
insert when the referenced session does not exist; the schema declares no
uniqueness constraint on (sessionId, questionNumber), so the insert always
appends a new row. -/
def createQuestionResponse (st : Store) (row : QuestionResponseRow) : Except String Store :=
  if st.sessions.any (fun s => s.id == row.sessionId) then
    Except.ok { st with responses := st.responses ++ [row] }
  else Except.error ("foreign key violation on session_id")

/-- The validated request body of `POST /api/question-responses`
(aiService.ts lines 560-571). -/
structure QRRequest where
  sessionId : String
  questionNumber : ℕ
  questionType : String
  subject : Option String
  questionText : String
  userAnswer : String
  correctAnswer : Option String
  llmProvider : String
  timeSpent : Option ℕ
deriving DecidableEq, Repr

/-- The row the `POST /api/question-responses` handler persists
(aiService.ts lines 584-593): the validated payload plus
`isCorrect = grading.score >= 70`, the grading feedback as explanation and
the full grading detail. -/
def mkQuestionResponseRow (req : QRRequest) (g : AIGrading) : QuestionResponseRow :=
  { sessionId := req.sessionId
    questionNumber := req.questionNumber
    questionType := req.questionType
    subject := req.subject
    questionText := req.questionText
    userAnswer := req.userAnswer
    correctAnswer := req.correctAnswer
    isCorrect := decide ((70 : ℚ) ≤ g.score)
    explanation := g.feedback
    aiGrading := some g
    timeSpent := req.timeSpent
    llmProvider := req.llmProvider }

/-- The `POST /api/question-responses` handler (aiService.ts lines
558-612).  The adapter's grade call is passed in as an `Except` value;
grading precedes every persistence step, the response row is inserted, and
the analytics update runs when the payload carries a subject tag and the
session exists with a user id.  Any failure leaves the store unchanged and
surfaces an error (the route answers 500). -/
def handleQuestionResponse (st : Store) (req : QRRequest)
    (grading : Except String AIGrading) (now : ℕ) :
    Store × Except String (QuestionResponseRow × AIGrading) :=
  match grading with
  | Except.error e => (st, Except.error e)
  | Except.ok g =>
    let row := mkQuestionResponseRow req g
    match createQuestionResponse st row with
    | Except.error e => (st, Except.error e)
    | Except.ok st1 =>
      let st2 :=
        match req.subject with
        | none => st1
        | some subj =>
          match st1.sessions.find? (fun s => s.id == req.sessionId) with
          | some sess =>
            match sess.userId with
            | some uid =>
                { st1 with analytics := upsertUserAnalytics st1.analytics uid subj row.isCorrect now }
            | none => st1
          | none => st1
      (st2, Except.ok (row, g))

/-! ### Provider dispatchers -/

/-- `AIService.generateQuestion` (aiService.ts lines 48-68): a switch on
the provider identifier, delegating to one of exactly four backends; any
other identifier throws `Unsupported LLM provider`.  The backends are
opaque network calls, passed here as `Except` values. -/
def generateQuestionDispatch (provider : String)
    (openaiQ anthropicQ deepseekQ perplexityQ : Except String AIQuestion) :
    Except String AIQuestion :=
  if provider = ("openai") then openaiQ
  else if provider = ("anthropic") then anthropicQ
  else if provider = ("deepseek") then deepseekQ
  else if provider = ("perplexity") then perplexityQ
  else Except.error (("Unsupported LLM provider: ") ++ provider)

/-- `AIService.gradeResponse` (aiService.ts lines 70-96): the same switch
shape for grading. -/
def gradeResponseDispatch (provider : String)
    (openaiG anthropicG deepseekG perplexityG : Except String AIGrading) :
    Except String AIGrading :=
  if provider = ("openai") then openaiG
  else if provider = ("anthropic") then anthropicG
  else if provider = ("deepseek") then deepseekG
  else if provider = ("perplexity") then perplexityG
  else Except.error (("Unsupported LLM provider: ") ++ provider)

/-- `AIService.getChatResponse` (aiService.ts lines 98-119): the same
switch shape for chat replies. -/
def getChatResponseDispatch (provider : String)
    (openaiC anthropicC deepseekC perplexityC : Except String String) :
    Except String String :=
  if provider = ("openai") then openaiC
  else if provider = ("anthropic") then anthropicC
  else if provider = ("deepseek") then deepseekC
  else if provider = ("perplexity") then perplexityC
  else Except.error (("Unsupported LLM provider: ") ++ provider)

/-! ### The diagnostic-tests handler -/

/-- The validated `type` field of `POST /api/diagnostic-tests`
(aiService.ts line 708): `z.enum(['single-mc','single-sa','single-essay',
'three-mixed'])`. -/
inductive DiagnosticType where
  | singleMc
  | singleSa
  | singleEssay
  | threeMixed
deriving DecidableEq, Repr

/-- The string form of a diagnostic type, as it appears in the session's
`testType` field. -/
def DiagnosticType.str : DiagnosticType → String
  | .singleMc => ("single-mc")
  | .singleSa => ("single-sa")
  | .singleEssay => ("single-essay")
  | .threeMixed => ("three-mixed")

/-- A question as returned by the diagnostic-tests response mapping
(aiService.ts line 746): the generated question plus `questionNumber` and
`generatedBy`. -/
structure NumberedQuestion where
  q : AIQuestion
  questionNumber : ℕ
  generatedBy : String
deriving DecidableEq, Repr

/-- The `POST /api/diagnostic-tests` handler (aiService.ts lines 705-752).
`gen qtype subject` stands for `aiService.generateQuestion(provider, qtype,
subject)`; `newSessionId` is the id Postgres generates for the new session.
Questions are generated first (any failure aborts the request before a
session is created), then a session is persisted with `totalQuestions`
equal to the number of generated questions, and the response numbers the
questions from 1 and stamps `generatedBy`. -/
def handleDiagnosticTests (st : Store) (dtype : DiagnosticType)
    (provider userId : String) (gen : String → String → Except String AIQuestion)
    (newSessionId : String) :
    Store × Except String (TestSessionRow × List NumberedQuestion) :=
  let questionsE : Except String (List AIQuestion) :=
    match dtype with
    | .singleMc => (gen ("multiple-choice") ("constitutional-law")).map (fun q => [q])
    | .singleSa => (gen ("short-answer") ("contracts")).map (fun q => [q])
    | .singleEssay => (gen ("essay") ("torts")).map (fun q => [q])
    | .threeMixed => do
        let q1 ← gen ("multiple-choice") ("constitutional-law")
        let q2 ← gen ("short-answer") ("contracts")
        let q3 ← gen ("essay") ("torts")
        pure [q1, q2, q3]
  match questionsE with
  | Except.error e => (st, Except.error e)
  | Except.ok questions =>
    let session : TestSessionRow :=
      { id := newSessionId
        userId := some userId
        testType := ("diagnostic-") ++ dtype.str
        llmProvider := provider
        status := ("active")
        totalQuestions := some questions.length
        currentQuestionIndex := 0 }
    ({ st with sessions := st.sessions ++ [session] },
     Except.ok (session,
       questions.enum.map (fun p =>
         { q := p.2, questionNumber := p.1 + 1, generatedBy := provider })))

/-! ### Chat history -/

/-- The numeric value of a list of decimal digit characters. -/
def digitsToNat (l : List Char) : ℕ :=
  l.foldl (fun acc c => acc * 10 + (c.toNat - ('0').toNat)) 0

/-- Parse a leading run of decimal digits; `none` when there is none
(JavaScript `NaN`). -/
def parseLeadingDigits (l : List Char) : Option ℕ :=
  let ds := l.takeWhile Char.isDigit
  if ds.isEmpty then none else some (digitsToNat ds)

/-- Model of the JavaScript `parseInt(x)` call in the chat-history route
(aiService.ts line 684) for decimal inputs: skip leading whitespace, accept
an optional sign, then read leading digits; anything else (including an
absent query parameter) is `NaN`, modelled as `none`.  The hexadecimal
`0x` auto-detection of `parseInt` is not modelled. -/
def parseIntJS : Option String → Option ℤ
  | none => none
  | some s =>
    match s.data.dropWhile isJsWhitespace with
    | '-' :: rest => (parseLeadingDigits rest).map (fun n => -(n : ℤ))
    | '+' :: rest => (parseLeadingDigits rest).map (fun n => (n : ℤ))
    | l => (parseLeadingDigits l).map (fun n => (n : ℤ))

/-- The effective limit of `GET /api/users/:userId/chat-history`
(aiService.ts line 684): `parseInt(req.query.limit) || 50`.  `NaN` and `0`
are falsy, so they fall back to the default 50. -/
def chatHistoryLimit (q : Option String) : ℤ :=
  match parseIntJS q with
  | none => 50
  | some n => if n = 0 then 50 else n

/-- Insert a chat message into a list kept in descending `createdAt`
order. -/
def insertByCreatedAtDesc (m : ChatMessageRow) : List ChatMessageRow → List ChatMessageRow
  | [] => [m]
  | x :: xs =>
    if x.createdAt ≤ m.createdAt then m :: x :: xs
    else x :: insertByCreatedAtDesc m xs

/-- Sort chat messages by `createdAt` descending; models the database's
`orderBy(desc(chatMessages.createdAt))`. -/
def sortByCreatedAtDesc : List ChatMessageRow → List ChatMessageRow
  | [] => []
  | x :: xs => insertByCreatedAtDesc x (sortByCreatedAtDesc xs)

/-- `DatabaseStorage.getUserChatHistory` (storage, replit.md lines
277-282): select the user's messages, order by `createdAt` descending,
limit the result. -/
def getUserChatHistory (msgs : List ChatMessageRow) (userId : String) (limit : ℕ) :
    List ChatMessageRow :=
  (sortByCreatedAtDesc (msgs.filter (fun m => m.userId == userId))).take limit

/-! ### Concrete inputs for the duplicate-question-number example -/

/-- A concrete test session. -/
def exSession : TestSessionRow :=
  { id := ("s1"), userId := some ("user-123"), testType := ("practice")
    llmProvider := ("openai"), status := ("active")
    totalQuestions := some 1, currentQuestionIndex := 0 }

/-- A store holding just `exSession`. -/
def exStore : Store :=
  { sessions := [exSession], responses := [], analytics := [], chats := [] }

/-- A concrete question response for session `s1`, question number 1. -/
def exRow : QuestionResponseRow :=
  { sessionId := ("s1"), questionNumber := 1
    questionType := ("multiple-choice"), subject := some ("torts")
    questionText := ("Q"), userAnswer := ("A"), correctAnswer := some ("B")
    isCorrect := false, explanation := ("E"), aiGrading := none
    timeSpent := some 30, llmProvider := ("openai") }

/-- A second submission for the same session and question number. -/
def exRow2 : QuestionResponseRow :=
  { exRow with userAnswer := ("B"), isCorrect := true }

/-- The store after inserting `exRow` into `exStore`. -/
def exStore1 : Store := { exStore with responses := [exRow] }

/-- The store after also inserting `exRow2`. -/
def exStore2 : Store := { exStore with responses := [exRow, exRow2] }

/-! ### Concrete inputs for witnesses -/

/-- A concrete request body for `POST /api/question-responses`. -/
def exReq : QRRequest :=
  { sessionId := ("s1"), questionNumber := 1
    questionType := ("essay"), subject := some ("torts")
    questionText := ("Q"), userAnswer := ("A"), correctAnswer := none
    llmProvider := ("anthropic"), timeSpent := some 120 }

/-- A grading verdict with score exactly 70. -/
def exGrading70 : AIGrading :=
  { score := 70, feedback := ("ok"), strengths := [], improvements := [], correctAnswer := none }

/-- A grading verdict with score 69. -/
def exGrading69 : AIGrading :=
  { score := 69, feedback := ("close"), strengths := [], improvements := [], correctAnswer := none }

/-- A concrete generated question. -/
def exQuestion : AIQuestion :=
  { qtype := ("multiple-choice"), subject := ("constitutional-law")
    questionText := ("Which clause applies?")
    options := some [("A"), ("B"), ("C"), ("D")]
    correctAnswer := some ("A"), explanation := ("E"), difficulty := ("medium") }

/-- A backend generator that always returns `exQuestion`. -/
def exGen : String → String → Except String AIQuestion := fun _ _ => Except.ok exQuestion

/-! ### Helper lemmas: analytics invariant -/

/-- Folding graded outcomes over `updateUserAnalytics` preserves
`correctAnswers ≤ totalQuestions`. -/
theorem foldl_updateUserAnalytics_inv (userId subject : String)
    (outcomes : List (Bool × ℕ)) (init : Option AnalyticsRow)
    (h : ∀ a, init = some a → a.correctAnswers ≤ a.totalQuestions) :
    ∀ a, outcomes.foldl
        (fun prev o => some (updateUserAnalytics prev userId subject o.1 o.2)) init = some a →
      a.correctAnswers ≤ a.totalQuestions := by
  induction outcomes generalizing init with
  | nil => exact h
  | cons o os ih =>
    intro a ha
    rw [List.foldl_cons] at ha
    refine ih (some (updateUserAnalytics init userId subject o.1 o.2)) ?_ a ha
    intro b hb
    injection hb with hb
    subst hb
    cases hi : init with
    | none => simp [updateUserAnalytics]; split <;> simp
    | some p =>
      have hp := h p hi
      simp [updateUserAnalytics]
      split <;> omega

/-- The row reached by a sequential run of graded outcomes satisfies
`correctAnswers ≤ totalQuestions`. -/
theorem runAnalytics_correct_le_total (userId subject : String)
    (outcomes : List (Bool × ℕ)) :
    ∀ a, runAnalytics userId subject outcomes = some a →
      a.correctAnswers ≤ a.totalQuestions := by
  intro a ha
  exact foldl_updateUserAnalytics_inv userId subject outcomes none (by simp) a ha

/-! ### C1: the pass-probability heuristic -/

/-- C1: `calculatePassProbability` returns 0 when the user has no analytics
rows, otherwise the weighted average mastery (fixed weight table, divided
by the sum of the weights used) mapped through
`min(100, max(0, (weightedMastery - 50) * 2))`; the result always lies in
[0, 100] and the rescaling is monotone non-decreasing in the weighted
mastery. -/
theorem calculatePassProbability_spec (rows : List AnalyticsRow) :
    calculatePassProbability rows
      = (if rows = [] then 0 else passFromMastery (weightedMastery rows))
    ∧ 0 ≤ calculatePassProbability rows
    ∧ calculatePassProbability rows ≤ 100
    ∧ ∀ m1 m2 : ℚ, m1 ≤ m2 → passFromMastery m1 ≤ passFromMastery m2 := by
  refine ⟨rfl, ?_, ?_, ?_⟩
  · unfold calculatePassProbability passFromMastery
    split
    · norm_num
    · exact le_min (by norm_num) (le_max_left 0 _)
  · unfold calculatePassProbability passFromMastery
    split
    · norm_num
    · exact min_le_left 100 _
  · intro m1 m2 h
    unfold passFromMastery
    exact min_le_min le_rfl (max_le_max le_rfl (by linarith))

/-- Witness for C1 at concrete inputs: the monotonicity clause applied at
masteries 60 and 80, and the empty-rows clause. -/
theorem calculatePassProbability_spec_witness :
    passFromMastery 60 ≤ passFromMastery 80 ∧ calculatePassProbability [] = 0 :=
  ⟨(calculatePassProbability_spec []).2.2.2 60 80 (by norm_num),
   (calculatePassProbability_spec []).1⟩

/-! ### C2: the analytics upsert over sequential graded responses -/

/-- C2: over any sequential run of graded responses for one (user,
subject) pair, the first call seeds the row with `totalQuestions = 1` and
`correctAnswers = isCorrect ? 1 : 0`; every later call increments both
counters together; after every call `averageScore` is exactly
`correctAnswers / totalQuestions * 100`, `masteryLevel` is
`min(100, averageScore)`, `lastPracticed` carries the current time, and
`correctAnswers ≤ totalQuestions` holds. -/
theorem updateUserAnalytics_sequential_spec (userId subject : String)
    (prevOutcomes : List (Bool × ℕ)) (isCorrect : Bool) (now : ℕ) :
    (runAnalytics userId subject [] = none
      ∧ (updateUserAnalytics none userId subject isCorrect now).totalQuestions = 1
      ∧ (updateUserAnalytics none userId subject isCorrect now).correctAnswers
          = (if isCorrect then 1 else 0))
    ∧ (∀ a : AnalyticsRow,
        (updateUserAnalytics (some a) userId subject isCorrect now).totalQuestions
            = a.totalQuestions + 1
        ∧ (updateUserAnalytics (some a) userId subject isCorrect now).correctAnswers
            = a.correctAnswers + (if isCorrect then 1 else 0))
    ∧ (∀ prev : Option AnalyticsRow,
        (updateUserAnalytics prev userId subject isCorrect now).averageScore
          = ((updateUserAnalytics prev userId subject isCorrect now).correctAnswers : ℚ)
            / ((updateUserAnalytics prev userId subject isCorrect now).totalQuestions : ℚ) * 100
        ∧ (updateUserAnalytics prev userId subject isCorrect now).masteryLevel
          = min 100 (updateUserAnalytics prev userId subject isCorrect now).averageScore
        ∧ (updateUserAnalytics prev userId subject isCorrect now).lastPracticed = now)
    ∧ (updateUserAnalytics (runAnalytics userId subject prevOutcomes) userId subject
          isCorrect now).correctAnswers
        ≤ (updateUserAnalytics (runAnalytics userId subject prevOutcomes) userId subject
          isCorrect now).totalQuestions := by
  refine ⟨⟨rfl, rfl, by simp [updateUserAnalytics]⟩,
    fun a => ⟨rfl, by simp [updateUserAnalytics]⟩, fun prev => ⟨rfl, rfl, rfl⟩, ?_⟩
  cases hr : runAnalytics userId subject prevOutcomes with
  | none => simp [updateUserAnalytics]; split <;> simp
  | some p =>
    have hp := runAnalytics_correct_le_total userId subject prevOutcomes p hr
    simp [updateUserAnalytics]
    split <;> omega

/-- Witness for C2: the first recorded response for a correct answer seeds
the row with both counters at 1, and the invariant holds after a concrete
two-response run. -/
theorem updateUserAnalytics_sequential_spec_witness :
    (updateUserAnalytics none ("user-123") ("torts") true 5).totalQuestions = 1
    ∧ (updateUserAnalytics (runAnalytics ("user-123") ("torts") [(true, 1), (false, 2)])
        ("user-123") ("torts") true 5).correctAnswers
      ≤ (updateUserAnalytics (runAnalytics ("user-123") ("torts") [(true, 1), (false, 2)])
        ("user-123") ("torts") true 5).totalQuestions :=
  ⟨(updateUserAnalytics_sequential_spec ("user-123") ("torts") [] true 5).1.2.1,
   (updateUserAnalytics_sequential_spec ("user-123") ("torts") [(true, 1), (false, 2)]
      true 5).2.2.2⟩

/-! ### C9: the mastery cap never binds on reachable states -/

/-- C9: the `masteryLevel` written by the analytics update always equals
`averageScore` exactly; since `correctAnswers ≤ totalQuestions` on every
reachable row and the counters are incremented together, the average is at
most 100 and the `min(100, ·)` cap can never bind. -/
theorem masteryLevel_eq_averageScore (userId subject : String)
    (outcomes : List (Bool × ℕ)) (isCorrect : Bool) (now : ℕ) :
    (updateUserAnalytics (runAnalytics userId subject outcomes) userId subject
        isCorrect now).masteryLevel
      = (updateUserAnalytics (runAnalytics userId subject outcomes) userId subject
        isCorrect now).averageScore := by
  have hc : (updateUserAnalytics (runAnalytics userId subject outcomes) userId subject
        isCorrect now).correctAnswers
      ≤ (updateUserAnalytics (runAnalytics userId subject outcomes) userId subject
        isCorrect now).totalQuestions := by
    cases hr : runAnalytics userId subject outcomes with
    | none => simp [updateUserAnalytics]; split <;> simp
    | some p =>
      have hp := runAnalytics_correct_le_total userId subject outcomes p hr
      simp [updateUserAnalytics]
      split <;> omega
  have ht : (0 : ℚ) < ((updateUserAnalytics (runAnalytics userId subject outcomes) userId
      subject isCorrect now).totalQuestions : ℚ) := by
    have : 0 < (updateUserAnalytics (runAnalytics userId subject outcomes) userId subject
        isCorrect now).totalQuestions := by
      simp [updateUserAnalytics]
    exact_mod_cast this
  show min 100 _ = _
  apply min_eq_right
  have hdiv : ((updateUserAnalytics (runAnalytics userId subject outcomes) userId subject
        isCorrect now).correctAnswers : ℚ)
      / ((updateUserAnalytics (runAnalytics userId subject outcomes) userId subject
        isCorrect now).totalQuestions : ℚ) ≤ 1 := by
    rw [div_le_one ht]
    exact_mod_cast hc
  calc ((updateUserAnalytics (runAnalytics userId subject outcomes) userId subject
        isCorrect now).correctAnswers : ℚ)
      / ((updateUserAnalytics (runAnalytics userId subject outcomes) userId subject
        isCorrect now).totalQuestions : ℚ) * 100
      ≤ 1 * 100 := by nlinarith
    _ = 100 := by norm_num

/-! ### C3: the correctness threshold at score 70 -/

/-- C3: in `POST /api/question-responses` the persisted `isCorrect` flag is
true exactly when the grading score is at least 70, for every question
type; in particular a score of exactly 70 yields true and a score below 70
(such as 69) yields false. -/
theorem questionResponse_isCorrect_threshold (st : Store) (req : QRRequest)
    (g : AIGrading) (now : ℕ) :
    (∀ row grading2,
        (handleQuestionResponse st req (Except.ok g) now).2 = Except.ok (row, grading2) →
          row = mkQuestionResponseRow req g
          ∧ (row.isCorrect = true ↔ (70 : ℚ) ≤ g.score))
    ∧ ((70 : ℚ) ≤ g.score → (mkQuestionResponseRow req g).isCorrect = true)
    ∧ (g.score < 70 → (mkQuestionResponseRow req g).isCorrect = false) := by
  refine ⟨?_, ?_, ?_⟩
  · intro row grading2 h
    simp only [handleQuestionResponse] at h
    split at h
    · simp at h
    · simp only [Prod.snd] at h
      injection h with h
      injection h with h1 h2
      subst h1
      exact ⟨rfl, by simp [mkQuestionResponseRow]⟩
  · intro h
    simp [mkQuestionResponseRow, h]
  · intro h
    simp [mkQuestionResponseRow]
    linarith

/-- Witness for C3: concrete gradings at the boundary, scores 70 and 69. -/
theorem questionResponse_isCorrect_threshold_witness :
    (mkQuestionResponseRow exReq exGrading70).isCorrect = true
    ∧ (mkQuestionResponseRow exReq exGrading69).isCorrect = false :=
  ⟨(questionResponse_isCorrect_threshold exStore exReq exGrading70 0).2.1 (by norm_num [exGrading70]),
   (questionResponse_isCorrect_threshold exStore exReq exGrading69 0).2.2 (by norm_num [exGrading69])⟩

/-! ### C6: a failed grade call leaves the store unchanged -/

/-- C6: if the adapter's grade call fails during
`POST /api/question-responses`, the request surfaces the error and the
store is unchanged: no question response is inserted and no analytics row
is created or updated, because grading precedes every persistence step in
the handler. -/
theorem gradeFailure_leaves_store_unchanged (st : Store) (req : QRRequest)
    (e : String) (now : ℕ) :
    handleQuestionResponse st req (Except.error e) now = (st, Except.error e)
    ∧ (handleQuestionResponse st req (Except.error e) now).1.responses = st.responses
    ∧ (handleQuestionResponse st req (Except.error e) now).1.analytics = st.analytics :=
  ⟨rfl, rfl, rfl⟩

/-! ### C7: unsupported providers are terminal errors -/

/-- C7: for every provider identifier outside the four supported ones, each
of the dispatchers `generateQuestion`, `gradeResponse` and
`getChatResponse` answers the `Unsupported LLM provider` error, whatever
the backends would return — so no retry happens and no other provider is
substituted. -/
theorem unsupported_provider_errors (provider : String)
    (h : provider ∉ ([("openai"), ("anthropic"), ("deepseek"), ("perplexity")] : List String)) :
    (∀ a b c d, generateQuestionDispatch provider a b c d
        = Except.error (("Unsupported LLM provider: ") ++ provider))
    ∧ (∀ a b c d, gradeResponseDispatch provider a b c d
        = Except.error (("Unsupported LLM provider: ") ++ provider))
    ∧ (∀ a b c d, getChatResponseDispatch provider a b c d
        = Except.error (("Unsupported LLM provider: ") ++ provider)) := by
  simp only [List.mem_cons, List.not_mem_nil, or_false, not_or] at h
  obtain ⟨h1, h2, h3, h4⟩ := h
  refine ⟨fun a b c d => ?_, fun a b c d => ?_, fun a b c d => ?_⟩ <;>
    simp [generateQuestionDispatch, gradeResponseDispatch, getChatResponseDispatch,
      h1, h2, h3, h4]

/-- Witness for C7: the provider id `gemini` is rejected by all three
operations. -/
theorem unsupported_provider_errors_witness :
    generateQuestionDispatch ("gemini") (Except.ok exQuestion) (Except.ok exQuestion)
        (Except.ok exQuestion) (Except.ok exQuestion)
      = Except.error (("Unsupported LLM provider: ") ++ ("gemini"))
    ∧ getChatResponseDispatch ("gemini") (Except.ok ("a")) (Except.ok ("b"))
        (Except.ok ("c")) (Except.ok ("d"))
      = Except.error (("Unsupported LLM provider: ") ++ ("gemini")) :=
  ⟨(unsupported_provider_errors ("gemini") (by decide)).1 _ _ _ _,
   (unsupported_provider_errors ("gemini") (by decide)).2.2 _ _ _ _⟩

/-! ### C8: the single-mc diagnostic test -/

/-- C8: a successful `POST /api/diagnostic-tests` request of type
`single-mc` answers exactly one generated question with
`questionNumber = 1` and `generatedBy` the requested provider, together
with a newly created session whose `totalQuestions` is 1. -/
theorem diagnostic_single_mc_spec (st : Store) (provider userId : String)
    (gen : String → String → Except String AIQuestion) (sid : String) (q : AIQuestion)
    (h : gen ("multiple-choice") ("constitutional-law") = Except.ok q) :
    handleDiagnosticTests st .singleMc provider userId gen sid
      = ({ st with sessions := st.sessions ++
            [{ id := sid, userId := some userId
               testType := ("diagnostic-") ++ ("single-mc"), llmProvider := provider
               status := ("active"), totalQuestions := some 1
               currentQuestionIndex := 0 }] },
         Except.ok
           ({ id := sid, userId := some userId
              testType := ("diagnostic-") ++ ("single-mc"), llmProvider := provider
              status := ("active"), totalQuestions := some 1
              currentQuestionIndex := 0 },
            [{ q := q, questionNumber := 1, generatedBy := provider }])) := by
  simp [handleDiagnosticTests, h, DiagnosticType.str, Except.map, List.enum, List.enumFrom]

/-- Witness for C8 at a concrete store, provider and generator. -/
theorem diagnostic_single_mc_spec_witness :
    handleDiagnosticTests exStore .singleMc ("openai") ("user-123") exGen ("s2")
      = ({ exStore with sessions := exStore.sessions ++
            [{ id := ("s2"), userId := some ("user-123")
               testType := ("diagnostic-") ++ ("single-mc"), llmProvider := ("openai")
               status := ("active"), totalQuestions := some 1
               currentQuestionIndex := 0 }] },
         Except.ok
           ({ id := ("s2"), userId := some ("user-123")
              testType := ("diagnostic-") ++ ("single-mc"), llmProvider := ("openai")
              status := ("active"), totalQuestions := some 1
              currentQuestionIndex := 0 },
            [{ q := exQuestion, questionNumber := 1, generatedBy := ("openai") }])) :=
  diagnostic_single_mc_spec exStore ("openai") ("user-123") exGen ("s2") exQuestion rfl

/-! ### C5: the foreign key holds, question-number uniqueness does not -/

/-- Counterexample for C5: two successful inserts with the same session id
and question number leave two rows in the store — `createQuestionResponse`
never rejects or overwrites a duplicate question number. -/
theorem questionNumber_duplicate_rows :
    createQuestionResponse exStore exRow = Except.ok exStore1
    ∧ createQuestionResponse exStore1 exRow2 = Except.ok exStore2
    ∧ (exStore2.responses.filter (fun r =>
          r.sessionId == ("s1") && r.questionNumber == 1)).length = 2 := by
  refine ⟨rfl, rfl, by decide⟩

/-- C5 (amended): every successfully inserted QuestionResponse references
an existing TestSession (the foreign key is enforced at insert time and
preserved), but question numbers are not unique within a session — when the
session exists, an insert always succeeds by appending, even when a row
with the same session id and question number is already present. -/
theorem questionResponse_fk_and_duplicates (st : Store) (row : QuestionResponseRow)
    (hfk : ∀ r ∈ st.responses, ∃ s ∈ st.sessions, s.id = r.sessionId) :
    (∀ st2, createQuestionResponse st row = Except.ok st2 →
        ∀ r ∈ st2.responses, ∃ s ∈ st2.sessions, s.id = r.sessionId)
    ∧ ((∃ s ∈ st.sessions, s.id = row.sessionId) →
        createQuestionResponse st row
          = Except.ok { st with responses := st.responses ++ [row] }) := by
  constructor
  · intro st2 h r hr
    unfold createQuestionResponse at h
    split at h
    case isTrue hany =>
      injection h with h
      subst h
      simp only [List.mem_append, List.mem_singleton] at hr
      rcases hr with hr | hr
      · exact hfk r hr
      · subst hr
        obtain ⟨s, hs, hid⟩ := List.any_eq_true.mp hany
        exact ⟨s, hs, by simpa using hid⟩
    case isFalse => simp at h
  · rintro ⟨s, hs, hid⟩
    unfold createQuestionResponse
    rw [if_pos (List.any_eq_true.mpr ⟨s, hs, by simp [hid]⟩)]

/-- Witness for C5 (amended): inserting into a store with an empty response
table and a matching session succeeds and appends the row. -/
theorem questionResponse_fk_and_duplicates_witness :
    createQuestionResponse exStore exRow
      = Except.ok { exStore with responses := exStore.responses ++ [exRow] } :=
  (questionResponse_fk_and_duplicates exStore exRow (by simp [exStore])).2
    ⟨exSession, by simp [exStore], by decide⟩

/-! ### Helper lemmas: chat-history ordering -/

/-- Membership in `insertByCreatedAtDesc`. -/
theorem mem_insertByCreatedAtDesc (m a : ChatMessageRow) (l : List ChatMessageRow) :
    a ∈ insertByCreatedAtDesc m l ↔ a = m ∨ a ∈ l := by
  induction l with
  | nil => simp [insertByCreatedAtDesc]
  | cons x xs ih =>
    simp only [insertByCreatedAtDesc]
    split
    · simp [or_comm, or_assoc, or_left_comm]
    · simp [ih]
      tauto

/-- Membership in `sortByCreatedAtDesc`. -/
theorem mem_sortByCreatedAtDesc (a : ChatMessageRow) (l : List ChatMessageRow) :
    a ∈ sortByCreatedAtDesc l ↔ a ∈ l := by
  induction l with
  | nil => simp [sortByCreatedAtDesc]
  | cons x xs ih => simp [sortByCreatedAtDesc, mem_insertByCreatedAtDesc, ih]

/-- Inserting into a list sorted by `createdAt` descending keeps it
sorted. -/
theorem pairwise_insertByCreatedAtDesc (m : ChatMessageRow) (l : List ChatMessageRow)
    (h : l.Pairwise (fun a b => b.createdAt ≤ a.createdAt)) :
    (insertByCreatedAtDesc m l).Pairwise (fun a b => b.createdAt ≤ a.createdAt) := by
  induction l with
  | nil => simp [insertByCreatedAtDesc]
  | cons x xs ih =>
    simp only [insertByCreatedAtDesc]
    rw [List.pairwise_cons] at h
    obtain ⟨hx, hxs⟩ := h
    split
    case isTrue hle =>
      rw [List.pairwise_cons]
      refine ⟨?_, List.pairwise_cons.mpr ⟨hx, hxs⟩⟩
      intro b hb
      rcases List.mem_cons.mp hb with hb | hb
      · subst hb; exact hle
      · exact le_trans (hx b hb) hle
    case isFalse hgt =>
      rw [List.pairwise_cons]
      refine ⟨?_, ih hxs⟩
      intro b hb
      rcases (mem_insertByCreatedAtDesc m b xs).mp hb with hb | hb
      · subst hb; exact le_of_not_le hgt
      · exact hx b hb

/-- `sortByCreatedAtDesc` sorts by `createdAt` descending. -/
theorem pairwise_sortByCreatedAtDesc (l : List ChatMessageRow) :
    (sortByCreatedAtDesc l).Pairwise (fun a b => b.createdAt ≤ a.createdAt) := by
  induction l with
  | nil => simp [sortByCreatedAtDesc]
  | cons x xs ih => exact pairwise_insertByCreatedAtDesc x (sortByCreatedAtDesc xs) ih

/-! ### C10: the chat-history route -/

/-- C10: `GET /api/users/:userId/chat-history` falls back to the default
limit 50 when the `limit` query parameter is absent, non-numeric or 0; and
for every natural effective limit the result holds at most that many
messages, all belonging to the requested user, ordered by `createdAt`
descending. -/
theorem chatHistory_limit_spec :
    chatHistoryLimit none = 50
    ∧ (∀ s, parseIntJS (some s) = none → chatHistoryLimit (some s) = 50)
    ∧ chatHistoryLimit (some ("0")) = 50
    ∧ ∀ (msgs : List ChatMessageRow) (userId : String) (limit : ℕ),
        (getUserChatHistory msgs userId limit).length ≤ limit
        ∧ (∀ m ∈ getUserChatHistory msgs userId limit, m.userId = userId)
        ∧ (getUserChatHistory msgs userId limit).Pairwise
            (fun a b => b.createdAt ≤ a.createdAt) := by
  refine ⟨rfl, ?_, by decide, ?_⟩
  · intro s hs
    simp [chatHistoryLimit, hs]
  · intro msgs userId limit
    refine ⟨List.length_take_le limit _, ?_, ?_⟩
    · intro m hm
      have hm2 : m ∈ sortByCreatedAtDesc (msgs.filter (fun m => m.userId == userId)) :=
        List.mem_of_mem_take hm
      have hm3 : m ∈ msgs.filter (fun m => m.userId == userId) :=
        (mem_sortByCreatedAtDesc m _).mp hm2
      have := (List.mem_filter.mp hm3).2
      exact eq_of_beq this
    · exact (pairwise_sortByCreatedAtDesc _).sublist (List.take_sublist limit _)

/-- Witness for C10: a non-numeric limit string falls back to 50. -/
theorem chatHistory_limit_spec_witness :
    chatHistoryLimit (some ("abc")) = 50 :=
  chatHistory_limit_spec.2.1 ("abc") (by decide)

/-! ### Helper lemmas: the cleanup pipeline -/

/-- `stripJsonFencesF` does not depend on the exact fuel once the fuel
covers the input length. -/
theorem stripJsonFencesF_fuel (f1 : ℕ) :
    ∀ (f2 : ℕ) (l : List Char), l.length ≤ f1 → l.length ≤ f2 →
      stripJsonFencesF f1 l = stripJsonFencesF f2 l := by
  induction f1 with
  | zero =>
    intro f2 l h1 _
    have hl : l = [] := List.eq_nil_of_length_eq_zero (Nat.le_zero.mp h1)
    subst hl
    cases f2 <;> rfl
  | succ g ih =>
    intro f2 l h1 h2
    cases l with
    | nil => cases f2 <;> rfl
    | cons c rest =>
      cases f2 with
      | zero => simp at h2
      | succ h =>
        simp only [List.length_cons, Nat.add_le_add_iff_right] at h1 h2
        rcases rest with _ | ⟨b2, _ | ⟨b3, _ | ⟨c1, _ | ⟨c2, _ | ⟨c3, _ | ⟨c4, r⟩⟩⟩⟩⟩⟩
        · simp only [stripJsonFencesF, ite_self]
          exact congrArg (c :: ·) (ih h [] (by simp) (by simp))
        · simp only [stripJsonFencesF, ite_self]
          exact congrArg (c :: ·) (ih h _ (by simpa using h1) (by simpa using h2))
        · simp only [stripJsonFencesF, ite_self]
          exact congrArg (c :: ·) (ih h _ (by simpa using h1) (by simpa using h2))
        · simp only [stripJsonFencesF, ite_self]
          exact congrArg (c :: ·) (ih h _ (by simpa using h1) (by simpa using h2))
        · simp only [stripJsonFencesF, ite_self]
          exact congrArg (c :: ·) (ih h _ (by simpa using h1) (by simpa using h2))
        · simp only [stripJsonFencesF, ite_self]
          exact congrArg (c :: ·) (ih h _ (by simpa using h1) (by simpa using h2))
        · have hd : (r.dropWhile isJsWhitespace).length ≤ r.length :=
            (List.dropWhile_sublist _).length_le
          simp only [List.length_cons] at h1 h2
          simp only [stripJsonFencesF]
          by_cases hc : c = backtick
          · simp only [if_pos hc]
            split
            · exact ih h (r.dropWhile isJsWhitespace) (by omega) (by omega)
            · refine congrArg (c :: ·) (ih h _ ?_ ?_) <;> simp only [List.length_cons] <;> omega
          · simp only [if_neg hc]
            refine congrArg (c :: ·) (ih h _ ?_ ?_) <;> simp only [List.length_cons] <;> omega

/-- A character other than a backtick passes through `stripJsonFences`
unchanged. -/
theorem stripJsonFences_cons_of_ne (c : Char) (l : List Char) (hc : c ≠ backtick) :
    stripJsonFences (c :: l) = c :: stripJsonFences l := by
  simp only [stripJsonFences, List.length_cons, stripJsonFencesF, if_neg hc]

/-- `stripJsonFences` removes a ```` ```json ```` fence together with the
following whitespace run. -/
theorem stripJsonFences_fence (l : List Char) :
    stripJsonFences (backtick :: backtick :: backtick :: 'j' :: 's' :: 'o' :: 'n' :: l)
      = stripJsonFences (l.dropWhile isJsWhitespace) := by
  have hd : (l.dropWhile isJsWhitespace).length ≤ l.length :=
    (List.dropWhile_sublist _).length_le
  have h1 : stripJsonFences (backtick :: backtick :: backtick :: 'j' :: 's' :: 'o' :: 'n' :: l)
      = stripJsonFencesF (l.length + 6) (l.dropWhile isJsWhitespace) := rfl
  rw [h1]
  exact stripJsonFencesF_fuel _ _ _ (by omega) le_rfl

/-- A backtick-free prefix passes through `stripJsonFences` unchanged. -/
theorem stripJsonFences_append (pre l : List Char) (h : ∀ c ∈ pre, c ≠ backtick) :
    stripJsonFences (pre ++ l) = pre ++ stripJsonFences l := by
  induction pre with
  | nil => rfl
  | cons c t ih =>
    rw [List.cons_append, stripJsonFences_cons_of_ne c _ (h c (by simp)),
      ih (fun d hd => h d (by simp [hd])), List.cons_append]

/-- A backtick-free text is a fixed point of `stripJsonFences`. -/
theorem stripJsonFences_of_no_backtick (l : List Char) (h : ∀ c ∈ l, c ≠ backtick) :
    stripJsonFences l = l := by
  induction l with
  | nil => rfl
  | cons c t ih =>
    rw [stripJsonFences_cons_of_ne c t (h c (by simp)), ih (fun d hd => h d (by simp [hd]))]

/-- A character other than a backtick passes through `stripFenceEol`
unchanged. -/
theorem stripFenceEol_cons_of_ne (c : Char) (l : List Char) (hc : c ≠ backtick) :
    stripFenceEol (c :: l) = c :: stripFenceEol l := by
  simp only [stripFenceEol, List.length_cons, stripFenceEolF, if_neg hc]

/-- A backtick-free prefix passes through `stripFenceEol` unchanged. -/
theorem stripFenceEol_append (pre l : List Char) (h : ∀ c ∈ pre, c ≠ backtick) :
    stripFenceEol (pre ++ l) = pre ++ stripFenceEol l := by
  induction pre with
  | nil => rfl
  | cons c t ih =>
    rw [List.cons_append, stripFenceEol_cons_of_ne c _ (h c (by simp)),
      ih (fun d hd => h d (by simp [hd])), List.cons_append]

/-- A backtick-free text is a fixed point of `stripFenceEol`. -/
theorem stripFenceEol_of_no_backtick (l : List Char) (h : ∀ c ∈ l, c ≠ backtick) :
    stripFenceEol l = l := by
  induction l with
  | nil => rfl
  | cons c t ih =>
    rw [stripFenceEol_cons_of_ne c t (h c (by simp)), ih (fun d hd => h d (by simp [hd]))]

/-- Dropping stops at once when the predicate fails on the head of the
appended tail and cannot resume inside the prefix. -/
theorem dropWhile_append_cons (p : Char → Bool) (pre : List Char) (c : Char)
    (t : List Char) (hc : p c = false) :
    (pre ++ c :: t).dropWhile p = pre.dropWhile p ++ c :: t := by
  induction pre with
  | nil => simp [List.dropWhile_cons, hc]
  | cons x xs ih =>
    by_cases hx : p x
    · simp [List.dropWhile_cons, hx, ih]
    · simp [List.dropWhile_cons, hx]

/-- A list on which the predicate is everywhere false is unchanged by
`dropWhile`. -/
theorem dropWhile_eq_self_of_forall (p : Char → Bool) (l : List Char)
    (h : ∀ c ∈ l, p c = false) : l.dropWhile p = l := by
  cases l with
  | nil => rfl
  | cons c t => simp [List.dropWhile_cons, h c (by simp)]

/-- A list on which the predicate is everywhere true is emptied by
`dropWhile`. -/
theorem dropWhile_eq_nil_of_forall (p : Char → Bool) (l : List Char)
    (h : ∀ c ∈ l, p c = true) : l.dropWhile p = [] := by
  induction l with
  | nil => rfl
  | cons c t ih => simp [List.dropWhile_cons, h c (by simp), ih (fun d hd => h d (by simp [hd]))]

/-- A backtick-free text is a fixed point of `stripEdgeBackticks`. -/
theorem stripEdgeBackticks_of_no_backtick (l : List Char) (h : ∀ c ∈ l, c ≠ backtick) :
    stripEdgeBackticks l = l := by
  unfold stripEdgeBackticks
  rw [dropWhile_eq_self_of_forall _ l (fun c hc => by simp [h c hc]),
    dropWhile_eq_self_of_forall _ l.reverse
      (fun c hc => by simp [h c (List.mem_reverse.mp hc)]),
    List.reverse_reverse]

/-- The brace-span extraction on a non-lbrace prefix followed by a payload
that starts with `{` and ends with `}` returns exactly the payload. -/
theorem extractBraceSpan_of_shape (pre payload : List Char)
    (hpre : ∀ c ∈ pre, c ≠ lbrace)
    (hh : payload.head? = some lbrace)
    (hl : payload.reverse.head? = some rbrace) :
    extractBraceSpan (pre ++ payload) = some payload := by
  obtain ⟨ptail, rfl⟩ : ∃ t, payload = lbrace :: t := by
    cases payload with
    | nil => simp at hh
    | cons a t =>
      simp only [List.head?_cons, Option.some.injEq] at hh
      exact ⟨t, by rw [hh]⟩
  obtain ⟨q, hq⟩ : ∃ q, (lbrace :: ptail).reverse = rbrace :: q := by
    cases hr : (lbrace :: ptail).reverse with
    | nil => rw [hr] at hl; simp at hl
    | cons a t =>
      rw [hr] at hl
      simp only [List.head?_cons, Option.some.injEq] at hl
      exact ⟨t, by rw [hl]⟩
  have hlen : 2 ≤ (lbrace :: ptail).length := by
    cases ptail with
    | nil =>
      simp only [List.reverse_cons, List.reverse_nil, List.nil_append] at hq
      injection hq with hq1 hq2
      exact absurd hq1 (by decide)
    | cons b u => simp
  simp only [extractBraceSpan]
  rw [dropWhile_append_cons _ pre lbrace ptail (by decide),
    dropWhile_eq_nil_of_forall _ pre (fun c hc => by simp [hpre c hc]),
    List.nil_append]
  rw [if_neg (by simp), hq, List.dropWhile_cons]
  simp only [decide_True, decide_true_eq_true, Bool.not_true, Bool.false_eq_true, if_false]
  rw [← hq, List.reverse_reverse, if_pos hlen]

/-- `trimStr` leaves a text alone whose first and last characters are not
whitespace. -/
theorem trimStr_of_ends (l : List Char) (a b : Char) (t q : List Char)
    (h1 : l = a :: t) (h2 : l.reverse = b :: q)
    (ha : isJsWhitespace a = false) (hb : isJsWhitespace b = false) :
    trimStr l = l := by
  unfold trimStr
  rw [h1, List.dropWhile_cons, if_neg (by simp [ha]), ← h1, h2, List.dropWhile_cons,
    if_neg (by simp [hb]), ← h2, List.reverse_reverse]

/-- The full cleanup chain on a reply made of backtick-free leading
commentary, a ```` ```json ```` fence, a brace-delimited payload and the
closing fence: the fences disappear, the trailing newline is trimmed, and
only the whitespace at the very start of the commentary is removed. -/
theorem cleanResponse_fenced (commentary payload : List Char)
    (hc : ∀ c ∈ commentary, c ≠ backtick)
    (hp : ∀ c ∈ payload, c ≠ backtick)
    (hh : payload.head? = some lbrace)
    (hl : payload.getLast? = some rbrace) :
    cleanResponse (commentary ++ fenceOpen ++ payload ++ fenceClose)
      = commentary.dropWhile isJsWhitespace ++ payload := by
  obtain ⟨ptail, rfl⟩ : ∃ t, payload = lbrace :: t := by
    cases payload with
    | nil => simp at hh
    | cons a t =>
      simp only [List.head?_cons, Option.some.injEq] at hh
      exact ⟨t, by rw [hh]⟩
  have hrev : (lbrace :: ptail).reverse.head? = some rbrace := by
    rw [List.head?_reverse]; exact hl
  obtain ⟨q, hq⟩ : ∃ q, (lbrace :: ptail).reverse = rbrace :: q := by
    cases hr : (lbrace :: ptail).reverse with
    | nil => rw [hr] at hrev; simp at hrev
    | cons a t =>
      rw [hr] at hrev
      simp only [List.head?_cons, Option.some.injEq] at hrev
      exact ⟨t, by rw [hrev]⟩
  have hcp : ∀ c ∈ commentary ++ (lbrace :: ptail), c ≠ backtick := by
    intro d hd
    rcases List.mem_append.mp hd with h | h
    · exact hc d h
    · exact hp d h
  have e1 : commentary ++ fenceOpen ++ (lbrace :: ptail) ++ fenceClose
      = commentary ++ (backtick :: backtick :: backtick :: 'j' :: 's' :: 'o' :: 'n' ::
          ('\n' :: ((lbrace :: ptail) ++ fenceClose))) := by
    simp [fenceOpen, List.append_assoc]
  have hdrop1 : ('\n' :: ((lbrace :: ptail) ++ fenceClose)).dropWhile isJsWhitespace
      = (lbrace :: ptail) ++ fenceClose := by
    rw [List.dropWhile_cons, if_pos (by decide), List.cons_append, List.dropWhile_cons,
      if_neg (by decide)]
  have step1 : stripJsonFences (commentary ++ fenceOpen ++ (lbrace :: ptail) ++ fenceClose)
      = commentary ++ ((lbrace :: ptail) ++ fenceClose) := by
    rw [e1, stripJsonFences_append _ _ hc, stripJsonFences_fence, hdrop1,
      stripJsonFences_append _ _ hp,
      show stripJsonFences fenceClose = fenceClose from by decide]
  have e2 : commentary ++ ((lbrace :: ptail) ++ fenceClose)
      = (commentary ++ (lbrace :: ptail)) ++ fenceClose := by
    simp [List.append_assoc]
  have step2 : stripFenceEol (commentary ++ ((lbrace :: ptail) ++ fenceClose))
      = (commentary ++ (lbrace :: ptail)) ++ ['\n'] := by
    rw [e2, stripFenceEol_append _ _ hcp,
      show stripFenceEol fenceClose = ['\n'] from by decide]
  have hcp2 : ∀ c ∈ (commentary ++ (lbrace :: ptail)) ++ ['\n'], c ≠ backtick := by
    intro d hd
    rcases List.mem_append.mp hd with h | h
    · exact hcp d h
    · simp only [List.mem_singleton] at h
      subst h
      decide
  have step3 : stripEdgeBackticks ((commentary ++ (lbrace :: ptail)) ++ ['\n'])
      = (commentary ++ (lbrace :: ptail)) ++ ['\n'] :=
    stripEdgeBackticks_of_no_backtick _ hcp2
  have e4 : (commentary ++ (lbrace :: ptail)) ++ ['\n']
      = commentary ++ (lbrace :: (ptail ++ ['\n'])) := by
    simp [List.append_assoc]
  have e5 : (lbrace :: (ptail ++ ['\n'])).reverse = '\n' :: (rbrace :: q) := by
    rw [show lbrace :: (ptail ++ ['\n']) = (lbrace :: ptail) ++ ['\n'] from by simp,
      List.reverse_append, hq]
    rfl
  have step4 : trimStr ((commentary ++ (lbrace :: ptail)) ++ ['\n'])
      = commentary.dropWhile isJsWhitespace ++ (lbrace :: ptail) := by
    unfold trimStr
    rw [e4, dropWhile_append_cons _ commentary lbrace _ (by decide), List.reverse_append,
      e5]
    simp only [List.cons_append]
    rw [List.dropWhile_cons, if_pos (by decide), List.dropWhile_cons, if_neg (by decide)]
    rw [show rbrace :: (q ++ (commentary.dropWhile isJsWhitespace).reverse)
          = (rbrace :: q) ++ (commentary.dropWhile isJsWhitespace).reverse from by simp,
      List.reverse_append, List.reverse_reverse, ← hq, List.reverse_reverse]
  unfold cleanResponse
  rw [step1, step2, step3, step4]

/-! ### C4: the JSON extraction of fenced replies -/

/-- Counterexample for C4: the code's extraction is the greedy span from
the first `{` to the last `}` of the whole cleaned reply, not the first
balanced `{...}` span the claim describes.  On a reply whose fenced payload
is followed by commentary containing another brace span, the extracted text
is not the payload (and is not a balanced object at all), while the spec's
first balanced span is exactly the payload. -/
theorem jsonExtraction_not_first_balanced :
    specFirstBalancedBraceSpan (cleanResponse exampleReply) = some examplePayload
    ∧ extractJsonText exampleReply
        = examplePayload ++ ("\n\nAlso: ").data ++ [lbrace, 'b', rbrace]
    ∧ extractJsonText exampleReply ≠ examplePayload := by
  refine ⟨by decide, by decide, by decide⟩

/-- C4 (amended): the cleanup strips the markdown code-fence markers, and
the extraction then takes the span from the first `{` to the last `}` of
the cleaned text (the regex `\{[\s\S]*\}` is greedy).  Consequently, for a
reply whose payload is wrapped in ```` ```json ```` fences with leading
commentary that contains no backticks and no braces, the text handed to
`JSON.parse` is exactly the bare payload — so the reply parses to the same
object as the bare payload. -/
theorem jsonExtraction_fenced_payload_eq (commentary payload : List Char)
    (hc : ∀ c ∈ commentary, c ≠ backtick ∧ c ≠ lbrace ∧ c ≠ rbrace)
    (hp : ∀ c ∈ payload, c ≠ backtick)
    (hh : payload.head? = some lbrace)
    (hl : payload.getLast? = some rbrace) :
    extractJsonText (commentary ++ fenceOpen ++ payload ++ fenceClose) = payload
    ∧ extractJsonText payload = payload := by
  have hh2 : payload.reverse.head? = some rbrace := by
    rw [List.head?_reverse]; exact hl
  obtain ⟨ptail, hpt⟩ : ∃ t, payload = lbrace :: t := by
    cases payload with
    | nil => simp at hh
    | cons a t =>
      simp only [List.head?_cons, Option.some.injEq] at hh
      exact ⟨t, by rw [hh]⟩
  obtain ⟨q, hq⟩ : ∃ q, payload.reverse = rbrace :: q := by
    cases hr : payload.reverse with
    | nil => rw [hr] at hh2; simp at hh2
    | cons a t =>
      rw [hr] at hh2
      simp only [List.head?_cons, Option.some.injEq] at hh2
      exact ⟨t, by rw [hh2]⟩
  constructor
  · have hclean := cleanResponse_fenced commentary payload (fun c h => (hc c h).1) hp hh hl
    have hex : extractBraceSpan (commentary.dropWhile isJsWhitespace ++ payload)
        = some payload :=
      extractBraceSpan_of_shape _ payload
        (fun c hcm => (hc c ((List.dropWhile_sublist _).mem hcm)).2.1) hh hh2
    unfold extractJsonText
    rw [hclean, hex]
  · have hclean2 : cleanResponse payload = payload := by
      unfold cleanResponse
      rw [stripJsonFences_of_no_backtick payload hp, stripFenceEol_of_no_backtick payload hp,
        stripEdgeBackticks_of_no_backtick payload hp,
        trimStr_of_ends payload lbrace rbrace ptail q hpt hq (by decide) (by decide)]
    have hex2 : extractBraceSpan payload = some payload := by
      have := extractBraceSpan_of_shape [] payload (by simp) hh hh2
      simpa using this
    unfold extractJsonText
    rw [hclean2, hex2]

/-- Witness for C4 (amended) at a concrete commentary and payload. -/
theorem jsonExtraction_fenced_payload_eq_witness :
    extractJsonText (exampleCommentary ++ fenceOpen ++ examplePayload ++ fenceClose)
      = examplePayload
    ∧ extractJsonText examplePayload = examplePayload :=
  jsonExtraction_fenced_payload_eq exampleCommentary examplePayload (by decide) (by decide)
    (by decide) (by decide)
